import Mathlib

/-!
Shallow embedding of the ceraunus market-making client (crates `data`,
`trading-core`, `ceraunus`) and proofs about its order-book synchronizer,
trading state engine, PnL ledger and stream subscription names.

Conventions of the embedding:
* `rust_decimal::Decimal` is modelled as `ℚ` (exact arithmetic); a `Decimal`
  division, which panics in Rust when the divisor is zero, is modelled by
  `checkedDiv`, returning `none` exactly when the Rust code would panic.
* `chrono::DateTime<Utc>` is modelled as `Int` (milliseconds); calls to
  `Utc::now()` become an explicit `now : Int` argument.
* `uuid::Uuid` is modelled as `Nat`.
* `BTreeMap<Decimal, Decimal>` order-book sides are modelled extensionally as
  `ℚ → Option ℚ`; `FxHashMap<Uuid, Order>` as `Nat → Option Order`;
  `FxHashSet<Uuid>` as `Finset Nat`.
-/

namespace Ceraunus

/-- Embedding of `Symbol` from `data/src/order.rs`. -/
inductive Symbol where
  | BTCUSDT
  | ETHUSDT
  | SOLUSDT
  | BNBUSDT
deriving DecidableEq, Repr

/-- Embedding of `Side` from `data/src/order.rs`. -/
inductive Side where
  | Buy
  | Sell
deriving DecidableEq, Repr

/-- Embedding of `OrderKind` from `data/src/order.rs`. -/
inductive OrderKind where
  | Limit
  | Market
deriving DecidableEq, Repr

/-- Embedding of `OrderStatus` from `data/src/order.rs`. -/
inductive OrderStatus where
  | New
  | PartiallyFilled
  | Filled
  | Canceled
  | Rejected
  | Expired
deriving DecidableEq, Repr

/-- Embedding of `TimeInForce` from `data/src/order.rs`. -/
inductive TimeInForce where
  | GoodUntilCancel
  | GoodUntilDate
  | GoodTillCrossing
  | FillOrKill
  | ImmediateOrCancel
deriving DecidableEq, Repr

/-- Embedding of `ExecutionType` from `data/src/binance/account.rs`. -/
inductive ExecutionType where
  | New
  | Canceled
  | Calculated
  | Expired
  | Trade
  | Amendment
deriving DecidableEq, Repr

/-- Embedding of `Level` from `data/src/binance/market.rs`: a (price, quantity) pair. -/
structure Level where
  price : ℚ
  quantity : ℚ
deriving DecidableEq, Repr

/-- Embedding of `Depth` from `data/src/binance/market.rs`: payload of an incremental
depth update (`U` = `first_update_id`, `u` = `final_update_id`,
`pu` = `last_final_update_id`). -/
structure Depth where
  event_time : Int
  transaction_time : Int
  symbol : Symbol
  first_update_id : Nat
  final_update_id : Nat
  last_final_update_id : Nat
  bids : List Level
  asks : List Level
deriving DecidableEq, Repr

/-- Embedding of `OrderBook` from `trading-core/src/models.rs`; the two `BTreeMap` sides
are modelled extensionally as partial maps `ℚ → Option ℚ`. -/
structure OrderBook where
  symbol : Symbol
  local_ts : Int
  xchg_ts : Int
  last_update_id : Nat
  bids : ℚ → Option ℚ
  asks : ℚ → Option ℚ

namespace OrderBook

/-- Embedding of `OrderBook::new`: empty book with `last_update_id = 0`. -/
def new (symbol : Symbol) (now : Int) : OrderBook :=
  { symbol := symbol
    local_ts := now
    xchg_ts := now
    last_update_id := 0
    bids := fun _ => none
    asks := fun _ => none }

end OrderBook

/-- One iteration of the per-level loop body in `OrderBook::extend`:
quantity zero removes the price, a non-zero quantity inserts-or-overwrites. -/
def applyLevel (m : ℚ → Option ℚ) (l : Level) : ℚ → Option ℚ :=
  fun p =>
    if l.quantity = 0 then
      if p = l.price then none else m p
    else
      if p = l.price then some l.quantity else m p

/-- The `for level in depth.bids()` / `depth.asks()` loops of
`OrderBook::extend`, processing the update's levels in list order. -/
def applySide (m : ℚ → Option ℚ) (levels : List Level) : ℚ → Option ℚ :=
  levels.foldl applyLevel m

/-- Embedding of `OrderBook::extend` from `trading-core/src/models.rs`: stamps the
timestamps, sets `last_update_id` to the delta's `final_update_id`, and folds
both level lists into the side maps. -/
def OrderBook.extend (ob : OrderBook) (now : Int) (depth : Depth) : OrderBook :=
  { ob with
    xchg_ts := depth.transaction_time
    local_ts := now
    last_update_id := depth.final_update_id
    bids := applySide ob.bids depth.bids
    asks := applySide ob.asks depth.asks }

/-- The gap predicate of the `MarketStream::Depth` arm in
`ceraunus/src/main.rs`: the Rust test
`(depth.last_final_update_id()..=depth.final_update_id()).contains(&ob.last_update_id())`,
i.e. `pu ≤ last_update_id ∧ last_update_id ≤ u`. -/
def depthApplies (depth : Depth) (lastUpdateId : Nat) : Bool :=
  decide (depth.last_final_update_id ≤ lastUpdateId ∧
    lastUpdateId ≤ depth.final_update_id)

/-- The pieces of main-loop state that the depth/snapshot arms of
`ceraunus/src/main.rs` mutate: `state.order_books[SOLUSDT]`, the local
`depth_buffer`, and the current `snapshot_fut` (modelled as a generation
counter that a gap bumps by replacing the future with a fresh
`snapshot_task`). -/
structure LoopState where
  state_book : Option OrderBook
  depth_buffer : List Depth
  snapshot_generation : Nat

/-- The `MarketStream::Depth` arm of the main loop in
`ceraunus/src/main.rs`: with a book present, apply the delta via `extend`
when the gap predicate holds, otherwise drop the book and start a new
delayed snapshot task; with no book, push the delta onto the buffer. -/
def handleDepth (now : Int) (ls : LoopState) (depth : Depth) : LoopState :=
  match ls.state_book with
  | some ob =>
    if depthApplies depth ob.last_update_id then
      { ls with state_book := some (ob.extend now depth) }
    else
      { ls with
        state_book := none
        snapshot_generation := ls.snapshot_generation + 1 }
  | none => { ls with depth_buffer := ls.depth_buffer ++ [depth] }

/-- The buffer drain of the `Event::SnapshotDone` arm in
`ceraunus/src/main.rs`: for each buffered delta in arrival order, skip it
when `final_update_id < ob.last_update_id()` (too old), otherwise apply it
via `extend`. -/
def drainBook (now : Int) (ob : OrderBook) (ds : List Depth) : OrderBook :=
  ds.foldl
    (fun ob d =>
      if d.final_update_id < ob.last_update_id then ob else ob.extend now d)
    ob

/-- The `Event::SnapshotDone(Ok(ob))` arm of the main loop: drain the depth
buffer into the snapshot book, empty the buffer, and install the book. -/
def handleSnapshotDone (now : Int) (ls : LoopState) (ob : OrderBook) :
    LoopState :=
  { ls with
    state_book := some (drainBook now ob ls.depth_buffer)
    depth_buffer := [] }

/-- Embedding of `OrderTradeUpdateEvent` from `data/src/binance/account.rs` (the
`ORDER_TRADE_UPDATE` payload), flattened through its getters: the fields
below are exactly those the engine, the order record and the PnL ledger
read (`filled_qty` appears only inside a log line and is omitted). -/
structure OrderTradeUpdateEvent where
  transaction_time : Int
  symbol : Symbol
  client_order_id : Nat
  side : Side
  order_kind : OrderKind
  exec_type : ExecutionType
  order_status : OrderStatus
  order_id : Nat
  last_filled_qty : ℚ
  last_filled_price : ℚ
  commission : ℚ
deriving DecidableEq, Repr

/-- Modelled from the spec: `OrderTradeUpdateEvent::last_filled_amount` is
called by `engine.rs` and `models.rs` but absent from the revision of
`account.rs` under `src/`; §4.3 of the spec defines
`last_filled_amount = last_filled_price × last_filled_qty`. -/
def OrderTradeUpdateEvent.last_filled_amount (ev : OrderTradeUpdateEvent) : ℚ :=
  ev.last_filled_price * ev.last_filled_qty

/-- Embedding of `Order` from `trading-core/src/models.rs`: local record for an order. -/
structure Order where
  symbol : Symbol
  side : Side
  start_ts : Int
  order_id : Option Nat
  client_order_id : Nat
  last_update_ts : Int
  kind : OrderKind
  curr_price : ℚ
  curr_qty : ℚ
  orig_price : ℚ
  orig_qty : ℚ
  time_in_force : TimeInForce
  good_till_date : Option Nat
  status : Option OrderStatus
deriving DecidableEq, Repr

/-- Embedding of `Order::on_update_received` from `trading-core/src/models.rs` (the
limit-traded-as-market `warn!` is logging only and not modelled). -/
def Order.on_update_received (o : Order) (ev : OrderTradeUpdateEvent) : Order :=
  { o with
    last_update_ts := ev.transaction_time
    order_id := some ev.order_id
    status := some ev.order_status
    curr_price := ev.last_filled_price
    curr_qty := ev.last_filled_qty
    kind := ev.order_kind }

/-- The error value built by `State::on_update_received` in
`trading-core/src/engine.rs`: `TradingCoreError::Unknown(String)` (the
revision of `error.rs` under `src/` is older and lacks this variant; the
constructor and its messages are taken from the use sites in `engine.rs`). -/
inductive TradingCoreError where
  | Unknown (msg : String)
deriving DecidableEq, Repr

/-- Embedding of `State` from `trading-core/src/engine.rs`: the trading state engine's
mutable state (the `EnumMap`s become total functions on `Symbol`, the active
order map a partial map on client ids, the hist set a `Finset`). -/
structure State where
  bbo_levels : Symbol → Option (Level × Level)
  order_books : Symbol → Option OrderBook
  active_orders : Nat → Option Order
  hist_orders : Finset Nat
  position : Symbol → ℚ
  start_time : Int
  turnover : ℚ

namespace State

/-- Embedding of `State::new` from `trading-core/src/engine.rs`. -/
def new (now : Int) : State :=
  { bbo_levels := fun _ => none
    order_books := fun _ => none
    active_orders := fun _ => none
    hist_orders := ∅
    position := fun _ => 0
    start_time := now
    turnover := 0 }

/-- Embedding of `State::complete_order`: remove the order from the active map and, when
the removal actually removed something, add its id to the hist set. -/
def complete_order (s : State) (id : Nat) : State :=
  match s.active_orders id with
  | some _ =>
    { s with
      active_orders := fun x => if x = id then none else s.active_orders x
      hist_orders := insert id s.hist_orders }
  | none => s

/-- Embedding of `State::on_update_received` from `trading-core/src/engine.rs`: look up
the client id in the active map (erroring with a message that distinguishes
ids found in the hist set from never-seen ids), update the stored order,
then apply the execution-type transition table. -/
def on_update_received (s : State) (ev : OrderTradeUpdateEvent) :
    Except TradingCoreError State :=
  match s.active_orders ev.client_order_id with
  | none =>
    if ev.client_order_id ∈ s.hist_orders then
      .error (.Unknown ("Order has been removed " ++ toString ev.client_order_id))
    else
      .error (.Unknown ("Untracked order " ++ toString ev.client_order_id))
  | some order =>
    let order' := order.on_update_received ev
    let s₁ : State :=
      { s with
        active_orders := fun x =>
          if x = ev.client_order_id then some order' else s.active_orders x }
    match ev.exec_type with
    | .Canceled | .Calculated | .Expired =>
      .ok (s₁.complete_order ev.client_order_id)
    | .Trade =>
      let s₂ : State :=
        { s₁ with
          position := fun sym =>
            if sym = ev.symbol then
              match ev.side with
              | .Buy => s₁.position sym + ev.last_filled_qty
              | .Sell => s₁.position sym - ev.last_filled_qty
            else s₁.position sym
          turnover := s₁.turnover + ev.last_filled_amount }
      if ev.order_status = .Filled then
        .ok (s₂.complete_order ev.client_order_id)
      else
        .ok s₂
    | .Amendment =>
      if ev.order_status = .Filled ∨ ev.order_status = .Canceled then
        .ok (s₁.complete_order ev.client_order_id)
      else
        .ok s₁
    | .New => .ok s₁

end State

/-- The `AccountStream::OrderTradeUpdate` arm of the main loop in
`ceraunus/src/main.rs`: on error the engine logs (`error!`) and keeps its
state, continuing the loop. -/
def handleOrderTradeUpdate (s : State) (ev : OrderTradeUpdateEvent) : State :=
  match s.on_update_received ev with
  | .ok s' => s'
  | .error _ => s

/-- Division as performed by `rust_decimal::Decimal`: the Rust operator
panics when the divisor is zero, modelled here by `none`. -/
def checkedDiv (a b : ℚ) : Option ℚ :=
  if b = 0 then none else some (a / b)

/-- Embedding of `ProfitAndLoss` from `trading-core/src/models.rs`: per-symbol PnL
ledger. -/
structure ProfitAndLoss where
  execution_pnl : ℚ
  unrealized_pnl : ℚ
  realized_pnl : ℚ
  avg_entry_price : ℚ
  position : ℚ
  buy_qty : ℚ
  sell_qty : ℚ
  buy_amount : ℚ
  sell_amount : ℚ
deriving DecidableEq, Repr

namespace ProfitAndLoss

/-- Embedding of `ProfitAndLoss::new`. -/
def new (init_price init_pos : ℚ) : ProfitAndLoss :=
  { execution_pnl := 0
    unrealized_pnl := 0
    realized_pnl := 0
    avg_entry_price := init_price
    position := init_pos
    buy_qty := 0
    sell_qty := 0
    buy_amount := 0
    sell_amount := 0 }

/-- Embedding of `ProfitAndLoss::handle_buy` from `trading-core/src/models.rs`; the
division `total_cost / self.position` is `checkedDiv` (panic on zero). -/
def handle_buy (p : ProfitAndLoss) (price qty amount : ℚ) :
    Option ProfitAndLoss :=
  let old_pos := p.position
  let p :=
    { p with
      position := p.position + qty
      buy_qty := p.buy_qty + qty
      buy_amount := p.buy_amount + amount }
  if 0 ≤ old_pos then
    (checkedDiv (p.avg_entry_price * old_pos + amount) p.position).map
      fun a => { p with avg_entry_price := a }
  else if qty ≤ -old_pos then
    some { p with realized_pnl := p.realized_pnl + (p.avg_entry_price - price) * qty }
  else
    some
      { p with
        realized_pnl := p.realized_pnl + (price - p.avg_entry_price) * old_pos
        avg_entry_price := price }

/-- Embedding of `ProfitAndLoss::handle_sell` from `trading-core/src/models.rs`; the
division `-total_cost / old_pos` is `checkedDiv` (panic on zero). Note the
first branch reads the already-updated `self.position` in `total_cost` and
divides by `old_pos`. -/
def handle_sell (p : ProfitAndLoss) (price qty amount : ℚ) :
    Option ProfitAndLoss :=
  let old_pos := p.position
  let p :=
    { p with
      position := p.position - qty
      sell_qty := p.sell_qty + qty
      sell_amount := p.sell_amount + amount }
  if old_pos ≤ 0 then
    let total_cost := amount - p.avg_entry_price * p.position
    (checkedDiv (-total_cost) old_pos).map
      fun a => { p with avg_entry_price := a }
  else if qty ≤ old_pos then
    some { p with realized_pnl := p.realized_pnl + (price - p.avg_entry_price) * qty }
  else
    some
      { p with
        realized_pnl := p.realized_pnl + (price - p.avg_entry_price) * old_pos
        avg_entry_price := price }

/-- Embedding of `ProfitAndLoss::on_update_received` from `trading-core/src/models.rs`:
deduct the commission, dispatch on the trade side, then recompute the
unrealized PnL from the updated average entry price and position. -/
def on_update_received (p : ProfitAndLoss) (ev : OrderTradeUpdateEvent) :
    Option ProfitAndLoss :=
  let p := { p with execution_pnl := p.execution_pnl - ev.commission }
  let price := ev.last_filled_price
  let qty := ev.last_filled_qty
  let amount := ev.last_filled_amount
  (match ev.side with
   | .Buy => p.handle_buy price qty amount
   | .Sell => p.handle_sell price qty amount).map
    fun p : ProfitAndLoss =>
      { p with unrealized_pnl := (price - p.avg_entry_price) * p.position }

end ProfitAndLoss

/-- Embedding of `Symbol::as_ref().to_lowercase()` as used by `StreamSpec::as_param`. -/
def Symbol.toLowerName : Symbol → String
  | .BTCUSDT => "btcusdt"
  | .ETHUSDT => "ethusdt"
  | .SOLUSDT => "solusdt"
  | .BNBUSDT => "bnbusdt"

/-- Modelled from the spec: the `StreamSpec` revision used by
`ceraunus/src/main.rs` (with optional depth levels and interval, and the
`BookTicker`/user-stream variants) is absent from `src/`, which holds an
older `subscription.rs` with mandatory `levels`/`interval_ms` fields;
constructors follow §4.1 of the spec and the `main.rs` use sites. -/
inductive StreamSpec where
  | Depth (symbol : Symbol) (levels : Option Nat) (interval_ms : Option Nat)
  | BookTicker (symbol : Symbol)
  | AggTrade (symbol : Symbol)
  | Trade (symbol : Symbol)
  | OrderTradeUpdate
  | TradeLite
  | AccountUpdate
deriving DecidableEq, Repr

/-- Modelled from the spec: `StreamSpec::as_param` for the current
`StreamSpec` (absent from `src/`); §4.1 defines the wire stream names, the
depth name being `<symbol_lowercase>@depth[<levels>][@<interval_ms>ms]` with
the levels and interval components independently optional, and user streams
being bare uppercase names. -/
def StreamSpec.as_param : StreamSpec → String
  | .Depth symbol levels interval_ms =>
    symbol.toLowerName ++ "@depth" ++
      (match levels with
       | some l => toString l
       | none => "") ++
      (match interval_ms with
       | some i => "@" ++ toString i ++ "ms"
       | none => "")
  | .BookTicker symbol => symbol.toLowerName ++ "@bookTicker"
  | .AggTrade symbol => symbol.toLowerName ++ "@aggTrade"
  | .Trade symbol => symbol.toLowerName ++ "@trade"
  | .OrderTradeUpdate => "ORDER_TRADE_UPDATE"
  | .TradeLite => "TRADE_LITE"
  | .AccountUpdate => "ACCOUNT_UPDATE"

/-- Terminal classification from the execution-type transition table of
`State::on_update_received`: execution types (with statuses) after which the
order leaves the active set. -/
def removesFromActive (ev : OrderTradeUpdateEvent) : Bool :=
  match ev.exec_type with
  | .Canceled | .Calculated | .Expired => true
  | .Trade => decide (ev.order_status = .Filled)
  | .Amendment =>
    decide (ev.order_status = .Filled ∨ ev.order_status = .Canceled)
  | .New => false

/-- Signed fill quantity of a trade event: `Buy` adds, `Sell` subtracts. -/
def signedFillQty (ev : OrderTradeUpdateEvent) : ℚ :=
  match ev.side with
  | .Buy => ev.last_filled_qty
  | .Sell => -ev.last_filled_qty

/-- Depth-update fixture (timestamps zero, symbol SOLUSDT). -/
def mkDepth (pu firstId u : Nat) (bids asks : List Level) : Depth :=
  { event_time := 0
    transaction_time := 0
    symbol := .SOLUSDT
    first_update_id := firstId
    final_update_id := u
    last_final_update_id := pu
    bids := bids
    asks := asks }

/-- Order-book fixture: empty sides, given `last_update_id`. -/
def mkBook (id : Nat) : OrderBook :=
  { symbol := .SOLUSDT
    local_ts := 0
    xchg_ts := 0
    last_update_id := id
    bids := fun _ => none
    asks := fun _ => none }

/-- Trade-event fixture: a `Trade`/`Filled` update with the given side,
price, quantity and commission (client id 7, order id 42). -/
def mkTradeEvent (side : Side) (price qty commission : ℚ) :
    OrderTradeUpdateEvent :=
  { transaction_time := 1
    symbol := .SOLUSDT
    client_order_id := 7
    side := side
    order_kind := .Limit
    exec_type := .Trade
    order_status := .Filled
    order_id := 42
    last_filled_qty := qty
    last_filled_price := price
    commission := commission }

/-- Local-order fixture with client id 7. -/
def orderFixture : Order :=
  { symbol := .SOLUSDT
    side := .Buy
    start_ts := 0
    order_id := none
    client_order_id := 7
    last_update_ts := 0
    kind := .Limit
    curr_price := 100
    curr_qty := 1
    orig_price := 100
    orig_qty := 1
    time_in_force := .GoodUntilCancel
    good_till_date := none
    status := none }

/-- Engine-state fixture: fresh state with `orderFixture` active under id 7. -/
def stateFixture : State :=
  { State.new 0 with
    active_orders := fun x => if x = 7 then some orderFixture else none }

/-- Main-loop state fixture with a book at `last_update_id = 10`. -/
def lsSomeFixture : LoopState :=
  { state_book := some (mkBook 10), depth_buffer := [], snapshot_generation := 0 }

/-- Main-loop state fixture with no book (bootstrap in progress). -/
def lsNoneFixture : LoopState :=
  { state_book := none, depth_buffer := [], snapshot_generation := 0 }

/-- An update applied to a price not mentioned in the level list leaves the
side map unchanged at that price. -/
theorem applySide_apply_of_not_mem (m : ℚ → Option ℚ) (ls : List Level)
    (p : ℚ) (h : ∀ l ∈ ls, l.price ≠ p) : applySide m ls p = m p := by
  induction ls generalizing m with
  | nil => rfl
  | cons x tl ih =>
    have hx : x.price ≠ p := h x (List.mem_cons_self x tl)
    show applySide (applyLevel m x) tl p = m p
    rw [ih (applyLevel m x) fun l hl => h l (List.mem_cons_of_mem x hl)]
    simp [applyLevel, Ne.symm hx]

/-- When the level list carries pairwise-distinct prices, the side map at a
listed price ends up removed (quantity zero) or overwritten. -/
theorem applySide_apply_of_nodup_mem (m : ℚ → Option ℚ) (ls : List Level)
    (l : Level) (hnd : (ls.map Level.price).Nodup) (hmem : l ∈ ls) :
    applySide m ls l.price = if l.quantity = 0 then none else some l.quantity := by
  induction ls generalizing m with
  | nil => cases hmem
  | cons x tl ih =>
    rw [List.map_cons] at hnd
    have hnd' := List.nodup_cons.mp hnd
    rcases List.mem_cons.mp hmem with rfl | hmem'
    · have htl : ∀ y ∈ tl, y.price ≠ l.price := by
        intro y hy heq
        exact hnd'.1 (heq ▸ List.mem_map_of_mem Level.price hy)
      show applySide (applyLevel m l) tl l.price = _
      rw [applySide_apply_of_not_mem _ _ _ htl]
      by_cases hq : l.quantity = 0 <;> simp [applyLevel, hq]
    · exact ih (applyLevel m x) hnd'.2 hmem'

/-- Folding an update into a zero-free side map never introduces a level
with quantity zero. -/
theorem applySide_ne_some_zero (m : ℚ → Option ℚ) (ls : List Level)
    (h : ∀ p q, m p = some q → q ≠ 0) :
    ∀ p q, applySide m ls p = some q → q ≠ 0 := by
  induction ls generalizing m with
  | nil => exact h
  | cons x tl ih =>
    refine ih (applyLevel m x) ?_
    intro p q hpq
    by_cases hq : x.quantity = 0 <;> by_cases hp : p = x.price <;>
      simp [applyLevel, hq, hp] at hpq
    · exact h p q hpq
    · exact hpq ▸ hq
    · exact h p q hpq

/-- Depth deltas arriving while the book is absent are appended to the
buffer in order and never applied. -/
theorem foldl_handleDepth_buffer (now : Int) (ds : List Depth)
    (ls : LoopState) (h : ls.state_book = none) :
    ds.foldl (handleDepth now) ls = { ls with depth_buffer := ls.depth_buffer ++ ds } := by
  induction ds generalizing ls with
  | nil => simp
  | cons d tl ih =>
    obtain ⟨book, buf, gen⟩ := ls
    simp only at h
    subst h
    rw [List.foldl_cons]
    have h1 : handleDepth now ⟨none, buf, gen⟩ d = ⟨none, buf ++ [d], gen⟩ := rfl
    rw [h1, ih _ rfl]
    simp

/-- The drain of `Event::SnapshotDone` never decreases `last_update_id`. -/
theorem drainBook_last_update_id_le (now : Int) (ds : List Depth)
    (ob : OrderBook) :
    ob.last_update_id ≤ (drainBook now ob ds).last_update_id := by
  induction ds generalizing ob with
  | nil => exact le_refl _
  | cons d tl ih =>
    unfold drainBook
    rw [List.foldl_cons]
    by_cases hc : d.final_update_id < ob.last_update_id
    · simpa [hc] using ih ob
    · simp only [hc, if_false]
      exact le_trans (not_lt.mp hc) (ih (ob.extend now d))

/-- Buffered updates whose `final_update_id` is below the initial
`last_update_id` are discarded by the drain, wherever they sit in the
buffer. -/
theorem drainBook_filter (now : Int) (ds : List Depth) (L : Nat)
    (ob : OrderBook) (hL : L ≤ ob.last_update_id) :
    drainBook now ob ds
      = drainBook now ob (ds.filter fun d => decide (L ≤ d.final_update_id)) := by
  induction ds generalizing ob with
  | nil => rfl
  | cons d tl ih =>
    by_cases hu : L ≤ d.final_update_id
    · rw [List.filter_cons, if_pos (decide_eq_true hu)]
      unfold drainBook
      rw [List.foldl_cons, List.foldl_cons]
      by_cases hc : d.final_update_id < ob.last_update_id
      · rw [if_pos hc]
        exact ih ob hL
      · rw [if_neg hc]
        exact ih (ob.extend now d) hu
    · have hc : d.final_update_id < ob.last_update_id :=
        lt_of_lt_of_le (not_le.mp hu) hL
      rw [List.filter_cons, if_neg (by simpa using hu)]
      unfold drainBook
      rw [List.foldl_cons, if_pos hc]
      exact ih ob hL

/-- C7: the per-price postcondition of the claim fails when a price repeats
within one update side: here price 1 is listed with quantity zero, yet after
`extend` it is present (the later entry ⟨1, 5⟩ wins because the levels are
folded in list order). -/
theorem claim_C7_counterexample :
    (⟨1, 0⟩ : Level) ∈ (mkDepth 0 1 1 [⟨1, 0⟩, ⟨1, 5⟩] []).bids ∧
    ((mkBook 0).extend 0 (mkDepth 0 1 1 [⟨1, 0⟩, ⟨1, 5⟩] [])).bids 1 = some 5 := by
  constructor
  · simp [mkDepth]
  · rfl

/-- C7: when the side lists of an update carry pairwise-distinct prices,
after `extend` every price listed with quantity zero is absent and every
price listed with positive quantity maps to that quantity; and for every
update whatsoever — duplicate prices included — `extend` never introduces a
level with quantity zero into side maps that were zero-free before. -/
theorem claim_C7_extend_zero_semantics (ob : OrderBook) (now : Int) (d : Depth)
    (hzb : ∀ p q, ob.bids p = some q → q ≠ 0)
    (hza : ∀ p q, ob.asks p = some q → q ≠ 0) :
    ((d.bids.map Level.price).Nodup →
      ∀ l ∈ d.bids,
        (l.quantity = 0 → (ob.extend now d).bids l.price = none) ∧
        (0 < l.quantity → (ob.extend now d).bids l.price = some l.quantity)) ∧
    ((d.asks.map Level.price).Nodup →
      ∀ l ∈ d.asks,
        (l.quantity = 0 → (ob.extend now d).asks l.price = none) ∧
        (0 < l.quantity → (ob.extend now d).asks l.price = some l.quantity)) ∧
    (∀ p q, (ob.extend now d).bids p = some q → q ≠ 0) ∧
    (∀ p q, (ob.extend now d).asks p = some q → q ≠ 0) := by
  refine ⟨fun hb l hl => ?_, fun ha l hl => ?_,
    applySide_ne_some_zero ob.bids d.bids hzb,
    applySide_ne_some_zero ob.asks d.asks hza⟩
  · constructor
    · intro h0
      show applySide ob.bids d.bids l.price = none
      rw [applySide_apply_of_nodup_mem ob.bids d.bids l hb hl]
      simp [h0]
    · intro hpos
      show applySide ob.bids d.bids l.price = some l.quantity
      rw [applySide_apply_of_nodup_mem ob.bids d.bids l hb hl]
      simp [ne_of_gt hpos]
  · constructor
    · intro h0
      show applySide ob.asks d.asks l.price = none
      rw [applySide_apply_of_nodup_mem ob.asks d.asks l ha hl]
      simp [h0]
    · intro hpos
      show applySide ob.asks d.asks l.price = some l.quantity
      rw [applySide_apply_of_nodup_mem ob.asks d.asks l ha hl]
      simp [ne_of_gt hpos]

/-- C7 witness: the zero-quantity semantics at a concrete book and update
with distinct prices per side. -/
theorem claim_C7_witness :
    (∀ l ∈ (mkDepth 0 1 1 [⟨1, 2⟩, ⟨3, 0⟩] [⟨5, 7⟩]).bids,
      (l.quantity = 0 →
        ((mkBook 0).extend 0 (mkDepth 0 1 1 [⟨1, 2⟩, ⟨3, 0⟩] [⟨5, 7⟩])).bids l.price = none) ∧
      (0 < l.quantity →
        ((mkBook 0).extend 0 (mkDepth 0 1 1 [⟨1, 2⟩, ⟨3, 0⟩] [⟨5, 7⟩])).bids l.price = some l.quantity)) ∧
    (∀ l ∈ (mkDepth 0 1 1 [⟨1, 2⟩, ⟨3, 0⟩] [⟨5, 7⟩]).asks,
      (l.quantity = 0 →
        ((mkBook 0).extend 0 (mkDepth 0 1 1 [⟨1, 2⟩, ⟨3, 0⟩] [⟨5, 7⟩])).asks l.price = none) ∧
      (0 < l.quantity →
        ((mkBook 0).extend 0 (mkDepth 0 1 1 [⟨1, 2⟩, ⟨3, 0⟩] [⟨5, 7⟩])).asks l.price = some l.quantity)) ∧
    (∀ p q,
      ((mkBook 0).extend 0 (mkDepth 0 1 1 [⟨1, 2⟩, ⟨3, 0⟩] [⟨5, 7⟩])).bids p = some q → q ≠ 0) ∧
    (∀ p q,
      ((mkBook 0).extend 0 (mkDepth 0 1 1 [⟨1, 2⟩, ⟨3, 0⟩] [⟨5, 7⟩])).asks p = some q → q ≠ 0) := by
  have T := claim_C7_extend_zero_semantics (mkBook 0) 0
    (mkDepth 0 1 1 [⟨1, 2⟩, ⟨3, 0⟩] [⟨5, 7⟩])
    (fun p q h => by simp [mkBook] at h)
    (fun p q h => by simp [mkBook] at h)
  exact ⟨T.1 (by decide), T.2.1 (by decide), T.2.2.1, T.2.2.2⟩

/-- C8: strict increase of `last_update_id` fails: a delta with
`pu = 9, u = 10` passes the gap predicate against a book at
`last_update_id = 10`, and the applied `extend` leaves `last_update_id`
unchanged at 10. -/
theorem claim_C8_counterexample :
    depthApplies (mkDepth 9 10 10 [] []) (mkBook 10).last_update_id = true ∧
    ((mkBook 10).extend 0 (mkDepth 9 10 10 [] [])).last_update_id = 10 ∧
    ¬ (mkBook 10).last_update_id
        < ((mkBook 10).extend 0 (mkDepth 9 10 10 [] [])).last_update_id := by
  exact ⟨rfl, rfl, by decide⟩

/-- C8: after an `extend` whose delta passes the gap predicate
`pu ≤ last_update_id ≤ u`, the book's `last_update_id` does not decrease:
the new value is the delta's `final_update_id`, which the predicate bounds
from below by the previous value. -/
theorem claim_C8_last_update_id_monotone (ob : OrderBook) (now : Int)
    (d : Depth) (h : depthApplies d ob.last_update_id = true) :
    ob.last_update_id ≤ (ob.extend now d).last_update_id ∧
    (ob.extend now d).last_update_id = d.final_update_id := by
  simp only [depthApplies, decide_eq_true_eq] at h
  exact ⟨h.2, rfl⟩

/-- Embedding of `State::complete_order` on an id present in the active map: the id
leaves the active map, joins the hist set, and positions/turnover are
untouched. -/
theorem complete_order_spec (s : State) (id : Nat)
    (h : (s.active_orders id).isSome = true) :
    (s.complete_order id).active_orders id = none ∧
    id ∈ (s.complete_order id).hist_orders ∧
    (s.complete_order id).position = s.position ∧
    (s.complete_order id).turnover = s.turnover := by
  obtain ⟨o, ho⟩ := Option.isSome_iff_exists.mp h
  simp [State.complete_order, ho]

/-- The two error messages of `State::on_update_received` are distinct for
every client id, so the log line distinguishes "already completed" from
"never known". -/
theorem untracked_msg_ne_removed_msg (a : String) :
    "Untracked order " ++ a ≠ "Order has been removed " ++ a := by
  intro h
  have hl := congrArg String.length h
  have e1 : ("Untracked order ").length = 16 := rfl
  have e2 : ("Order has been removed ").length = 23 := rfl
  rw [String.length_append, String.length_append, e1, e2] at hl
  omega

/-- C1: in the `MarketStream::Depth` arm, while a book is present the delta
is applied via `extend` exactly when the gap predicate
`pu ≤ last_update_id ≤ u` holds; when it fails the book is removed and a
new delayed snapshot task is started (generation bump); and while the book
is absent every arriving delta is buffered in order instead of applied. -/
theorem claim_C1_depth_dispatch (now : Int) (ls : LoopState) (d : Depth)
    (ds : List Depth) (ob : OrderBook) :
    (ls.state_book = some ob →
      (depthApplies d ob.last_update_id = true →
        handleDepth now ls d = { ls with state_book := some (ob.extend now d) }) ∧
      (depthApplies d ob.last_update_id = false →
        handleDepth now ls d =
          { ls with
            state_book := none
            snapshot_generation := ls.snapshot_generation + 1 })) ∧
    (ls.state_book = none →
      ds.foldl (handleDepth now) ls
        = { ls with depth_buffer := ls.depth_buffer ++ ds }) := by
  refine ⟨fun hob => ⟨fun happ => ?_, fun hgap => ?_⟩,
    fun hnone => foldl_handleDepth_buffer now ds ls hnone⟩
  · simp [handleDepth, hob, happ]
  · simp [handleDepth, hob, hgap]

/-- C1 witness: a passing delta against a book at `last_update_id = 10`,
and buffering of a delta while no book is present. -/
theorem claim_C1_witness :
    handleDepth 0 lsSomeFixture (mkDepth 5 6 20 [] [])
      = { lsSomeFixture with
          state_book := some ((mkBook 10).extend 0 (mkDepth 5 6 20 [] [])) } ∧
    List.foldl (handleDepth 0) lsNoneFixture [mkDepth 5 6 20 [] []]
      = { lsNoneFixture with
          depth_buffer := lsNoneFixture.depth_buffer ++ [mkDepth 5 6 20 [] []] } :=
  ⟨((claim_C1_depth_dispatch 0 lsSomeFixture (mkDepth 5 6 20 [] []) []
      (mkBook 10)).1 rfl).1 rfl,
   (claim_C1_depth_dispatch 0 lsNoneFixture (mkDepth 5 6 20 [] [])
      [mkDepth 5 6 20 [] []] (mkBook 10)).2 rfl⟩

/-- C2: at a snapshot book with `lastUpdateId = 100` and buffer
`[⟨pu 150, u 200⟩, ⟨pu 120, u 150⟩]`, the second update survives the
claim's `u ≥ lastUpdateId` filter yet the drain does not apply it (its `u`
is below the book's current `last_update_id` after the first applies), and
the first applied update violates the `pu ≤ lastUpdateId` half of the gap
predicate (150 > 100), which the drain never checks. -/
theorem claim_C2_counterexample :
    (mkBook 100).last_update_id ≤ (mkDepth 120 121 150 [] []).final_update_id ∧
    drainBook 0 (mkBook 100) [mkDepth 150 151 200 [] [], mkDepth 120 121 150 [] []]
      ≠ ((mkBook 100).extend 0 (mkDepth 150 151 200 [] [])).extend 0
          (mkDepth 120 121 150 [] []) ∧
    ¬ (mkDepth 150 151 200 [] []).last_final_update_id
        ≤ (mkBook 100).last_update_id :=
  ⟨by decide,
   fun h => absurd (congrArg OrderBook.last_update_id h) (by decide),
   by decide⟩

/-- C2: the `Event::SnapshotDone` drain processes the buffer in arrival
order; every buffered update with `final_update_id` below the snapshot's
`lastUpdateId` is discarded wherever it sits, `last_update_id` never drops
below the snapshot's value, and the first update surviving that filter is
applied first via `extend`, satisfying `lastUpdateId ≤ u` (only this half of
the gap predicate is guaranteed). -/
theorem claim_C2_drain_characterization (now : Int) (ob : OrderBook)
    (ds : List Depth) :
    drainBook now ob ds
      = drainBook now ob
          (ds.filter fun d => decide (ob.last_update_id ≤ d.final_update_id)) ∧
    ob.last_update_id ≤ (drainBook now ob ds).last_update_id ∧
    (∀ d ds',
      ds.filter (fun d => decide (ob.last_update_id ≤ d.final_update_id))
        = d :: ds' →
      drainBook now ob ds = drainBook now (ob.extend now d) ds' ∧
      ob.last_update_id ≤ d.final_update_id) := by
  refine ⟨drainBook_filter now ds ob.last_update_id ob (le_refl _),
    drainBook_last_update_id_le now ds ob, ?_⟩
  intro d ds' hf
  have hmem : d ∈ ds.filter
      (fun d => decide (ob.last_update_id ≤ d.final_update_id)) := by
    rw [hf]
    exact List.mem_cons_self d ds'
  have hdu : ob.last_update_id ≤ d.final_update_id :=
    of_decide_eq_true (List.mem_filter.mp hmem).2
  refine ⟨?_, hdu⟩
  rw [drainBook_filter now ds ob.last_update_id ob (le_refl _), hf]
  unfold drainBook
  rw [List.foldl_cons, if_neg (not_lt.mpr hdu)]

/-- C2 witness: a concrete drain whose buffer holds one stale and one live
update. -/
theorem claim_C2_witness :
    drainBook 0 (mkBook 100) [mkDepth 40 41 50 [] [], mkDepth 150 151 200 [] []]
      = drainBook 0 ((mkBook 100).extend 0 (mkDepth 150 151 200 [] [])) [] ∧
    (mkBook 100).last_update_id ≤ (mkDepth 150 151 200 [] []).final_update_id :=
  (claim_C2_drain_characterization 0 (mkBook 100)
      [mkDepth 40 41 50 [] [], mkDepth 150 151 200 [] []]).2.2
    (mkDepth 150 151 200 [] []) [] (by decide)

/-- C8 witness: a passing delta at a concrete book. -/
theorem claim_C8_witness :
    (mkBook 10).last_update_id
        ≤ ((mkBook 10).extend 0 (mkDepth 5 6 20 [] [])).last_update_id ∧
    ((mkBook 10).extend 0 (mkDepth 5 6 20 [] [])).last_update_id
        = (mkDepth 5 6 20 [] []).final_update_id :=
  claim_C8_last_update_id_monotone (mkBook 10) 0 (mkDepth 5 6 20 [] []) rfl

/-- C3: for every update whose client id is active, processing succeeds;
after a terminal execution type (Canceled/Calculated/Expired with any
status, Trade with status Filled, Amendment with status Filled or Canceled)
the order is gone from the active set and its id is in the hist set (a set,
so it occurs once); after New, non-Filled Trade, or other Amendment the
order stays active; and every Trade adds the signed fill quantity to the
symbol's position and the fill amount to turnover. -/
theorem claim_C3_order_lifecycle (s : State) (ev : OrderTradeUpdateEvent)
    (h : (s.active_orders ev.client_order_id).isSome = true) :
    ∃ s', s.on_update_received ev = .ok s' ∧
      (removesFromActive ev = true →
        s'.active_orders ev.client_order_id = none ∧
        ev.client_order_id ∈ s'.hist_orders) ∧
      (removesFromActive ev = false →
        (s'.active_orders ev.client_order_id).isSome = true) ∧
      (ev.exec_type = .Trade →
        s'.position ev.symbol = s.position ev.symbol + signedFillQty ev ∧
        s'.turnover = s.turnover + ev.last_filled_amount) := by
  obtain ⟨tt, sym, cid, side, okind, ex, ost, oid, lfq, lfp, comm⟩ := ev
  obtain ⟨order, horder⟩ := Option.isSome_iff_exists.mp h
  unfold State.on_update_received
  rw [horder]
  dsimp only
  cases ex with
  | Canceled =>
    refine ⟨_, rfl, fun _ => ⟨?_, ?_⟩, fun habs => ?_, fun hT => ?_⟩
    · simp [State.complete_order]
    · simp [State.complete_order]
    · simp [removesFromActive] at habs
    · exact ExecutionType.noConfusion hT
  | Calculated =>
    refine ⟨_, rfl, fun _ => ⟨?_, ?_⟩, fun habs => ?_, fun hT => ?_⟩
    · simp [State.complete_order]
    · simp [State.complete_order]
    · simp [removesFromActive] at habs
    · exact ExecutionType.noConfusion hT
  | Expired =>
    refine ⟨_, rfl, fun _ => ⟨?_, ?_⟩, fun habs => ?_, fun hT => ?_⟩
    · simp [State.complete_order]
    · simp [State.complete_order]
    · simp [removesFromActive] at habs
    · exact ExecutionType.noConfusion hT
  | New =>
    refine ⟨_, rfl, fun habs => ?_, fun _ => ?_, fun hT => ?_⟩
    · simp [removesFromActive] at habs
    · simp
    · exact ExecutionType.noConfusion hT
  | Trade =>
    by_cases hst : ost = OrderStatus.Filled
    · rw [if_pos hst]
      refine ⟨_, rfl, fun _ => ⟨?_, ?_⟩, fun habs => ?_, fun _ => ⟨?_, ?_⟩⟩
      · simp [State.complete_order]
      · simp [State.complete_order]
      · simp [removesFromActive, hst] at habs
      · cases side <;>
          simp [State.complete_order, signedFillQty, sub_eq_add_neg]
      · simp [State.complete_order, OrderTradeUpdateEvent.last_filled_amount]
    · rw [if_neg hst]
      refine ⟨_, rfl, fun habs => ?_, fun _ => ?_, fun _ => ⟨?_, ?_⟩⟩
      · exact absurd (of_decide_eq_true (by simpa [removesFromActive] using habs)) hst
      · simp
      · cases side <;> simp [signedFillQty, sub_eq_add_neg]
      · simp [OrderTradeUpdateEvent.last_filled_amount]
  | Amendment =>
    by_cases hst : ost = OrderStatus.Filled ∨ ost = OrderStatus.Canceled
    · rw [if_pos hst]
      refine ⟨_, rfl, fun _ => ⟨?_, ?_⟩, fun habs => ?_, fun hT => ?_⟩
      · simp [State.complete_order]
      · simp [State.complete_order]
      · rw [show removesFromActive ⟨tt, sym, cid, side, okind, .Amendment, ost,
          oid, lfq, lfp, comm⟩ = true from decide_eq_true hst] at habs
        cases habs
      · exact ExecutionType.noConfusion hT
    · rw [if_neg hst]
      refine ⟨_, rfl, fun habs => ?_, fun _ => ?_, fun hT => ?_⟩
      · exact absurd (of_decide_eq_true (by simpa [removesFromActive] using habs)) hst
      · simp
      · exact ExecutionType.noConfusion hT

/-- C3 witness: a Filled Trade on a concrete state with one active order. -/
theorem claim_C3_witness :
    ∃ s', stateFixture.on_update_received (mkTradeEvent .Buy 100 1 0) = .ok s' ∧
      (removesFromActive (mkTradeEvent .Buy 100 1 0) = true →
        s'.active_orders (mkTradeEvent .Buy 100 1 0).client_order_id = none ∧
        (mkTradeEvent .Buy 100 1 0).client_order_id ∈ s'.hist_orders) ∧
      (removesFromActive (mkTradeEvent .Buy 100 1 0) = false →
        (s'.active_orders (mkTradeEvent .Buy 100 1 0).client_order_id).isSome = true) ∧
      ((mkTradeEvent .Buy 100 1 0).exec_type = .Trade →
        s'.position (mkTradeEvent .Buy 100 1 0).symbol
          = stateFixture.position (mkTradeEvent .Buy 100 1 0).symbol
            + signedFillQty (mkTradeEvent .Buy 100 1 0) ∧
        s'.turnover = stateFixture.turnover
          + (mkTradeEvent .Buy 100 1 0).last_filled_amount) :=
  claim_C3_order_lifecycle stateFixture (mkTradeEvent .Buy 100 1 0) rfl

/-- C9: an update whose client id is neither active nor in the hist set
yields the "Untracked order" error (distinct from the "Order has been
removed" message used for hist ids), and the main-loop arm logs it and
keeps the state unchanged, continuing the loop. -/
theorem claim_C9_untracked_order (s : State) (ev : OrderTradeUpdateEvent)
    (h1 : s.active_orders ev.client_order_id = none)
    (h2 : ev.client_order_id ∉ s.hist_orders) :
    s.on_update_received ev
      = .error (.Unknown ("Untracked order " ++ toString ev.client_order_id)) ∧
    ("Untracked order " ++ toString ev.client_order_id)
      ≠ ("Order has been removed " ++ toString ev.client_order_id) ∧
    handleOrderTradeUpdate s ev = s := by
  have hres : s.on_update_received ev
      = .error (.Unknown ("Untracked order " ++ toString ev.client_order_id)) := by
    unfold State.on_update_received
    rw [h1]
    simp [h2]
  refine ⟨hres, untracked_msg_ne_removed_msg _, ?_⟩
  unfold handleOrderTradeUpdate
  rw [hres]

/-- C9 witness: an update for id 7 against the fresh engine state. -/
theorem claim_C9_witness :
    (State.new 0).on_update_received (mkTradeEvent .Buy 100 1 0)
      = .error (.Unknown ("Untracked order "
          ++ toString (mkTradeEvent .Buy 100 1 0).client_order_id)) ∧
    ("Untracked order " ++ toString (mkTradeEvent .Buy 100 1 0).client_order_id)
      ≠ ("Order has been removed "
          ++ toString (mkTradeEvent .Buy 100 1 0).client_order_id) ∧
    handleOrderTradeUpdate (State.new 0) (mkTradeEvent .Buy 100 1 0)
      = State.new 0 :=
  claim_C9_untracked_order (State.new 0) (mkTradeEvent .Buy 100 1 0) rfl
    (by decide)

/-- C4: a Buy of quantity `Q > 0` at price `P > 0` (amount `P×Q`, commission
`c1`) followed by a Sell of `Q` at `P` (commission `c2`), starting from a
fresh ledger with zero position, leaves `position = 0`, `realized_pnl = 0`
and `execution_pnl = -(c1 + c2)`. -/
theorem claim_C4_pnl_round_trip (init_price P Q c1 c2 : ℚ)
    (hQ : 0 < Q) (hP : 0 < P) :
    ∃ p2, ((ProfitAndLoss.new init_price 0).on_update_received
        (mkTradeEvent .Buy P Q c1)).bind
        (fun p1 => p1.on_update_received (mkTradeEvent .Sell P Q c2)) = some p2 ∧
      p2.position = 0 ∧ p2.realized_pnl = 0 ∧ p2.execution_pnl = -(c1 + c2) := by
  have hQ0 : Q ≠ 0 := ne_of_gt hQ
  have h1 : (ProfitAndLoss.new init_price 0).on_update_received
      (mkTradeEvent .Buy P Q c1)
      = some ⟨-c1, 0, 0, P, Q, Q, 0, P * Q, 0⟩ := by
    simp [ProfitAndLoss.on_update_received, ProfitAndLoss.handle_buy,
      ProfitAndLoss.new, checkedDiv, mkTradeEvent,
      OrderTradeUpdateEvent.last_filled_amount, hQ0, mul_div_cancel_right₀]
  have h2 : (⟨-c1, 0, 0, P, Q, Q, 0, P * Q, 0⟩ : ProfitAndLoss).on_update_received
      (mkTradeEvent .Sell P Q c2)
      = some ⟨-c1 - c2, 0, 0, P, 0, Q, Q, P * Q, P * Q⟩ := by
    simp [ProfitAndLoss.on_update_received, ProfitAndLoss.handle_sell,
      checkedDiv, mkTradeEvent, OrderTradeUpdateEvent.last_filled_amount,
      hQ.not_le]
  refine ⟨⟨-c1 - c2, 0, 0, P, 0, Q, Q, P * Q, P * Q⟩, ?_, rfl, rfl, by ring⟩
  rw [h1]
  exact h2

/-- C4 witness: buy 2 at 3 with commission 1, sell 2 at 3 with
commission 2. -/
theorem claim_C4_witness :
    (0:ℚ) < 2 ∧ (0:ℚ) < 3 ∧
    ∃ p2, ((ProfitAndLoss.new 5 0).on_update_received
        (mkTradeEvent .Buy 3 2 1)).bind
        (fun p1 => p1.on_update_received (mkTradeEvent .Sell 3 2 2)) = some p2 ∧
      p2.position = 0 ∧ p2.realized_pnl = 0 ∧ p2.execution_pnl = -(1 + 2) :=
  ⟨by norm_num, by norm_num,
    claim_C4_pnl_round_trip 5 3 2 1 2 (by norm_num) (by norm_num)⟩

/-- C5: extending a short position diverges from the symmetric weighted
average. From a ledger short 1 at average entry 10, a Sell fill of 1 at 20
(amount 20) decrements the position to -2 and leaves realized PnL at 0 as
claimed, but `handle_sell` sets `avg_entry_price` to 40 — computed as
`-(amount - avg·new_pos) / old_pos` — while the amount-weighted average of
the old entry (weight 1) and the fill (weight 1) is 15. -/
theorem claim_C5_sell_extend_short_divergence :
    (ProfitAndLoss.new 10 (-1)).on_update_received (mkTradeEvent .Sell 20 1 0)
      = some ⟨0, 40, 0, 40, -2, 0, 1, 0, 20⟩ ∧
    (10 * 1 + 20 * 1) / ((1:ℚ) + 1) = 15 ∧
    (40 : ℚ) ≠ (10 * 1 + 20 * 1) / ((1:ℚ) + 1) := by
  refine ⟨?_, by norm_num, by norm_num⟩
  norm_num [ProfitAndLoss.on_update_received, ProfitAndLoss.handle_sell,
    ProfitAndLoss.new, checkedDiv, mkTradeEvent,
    OrderTradeUpdateEvent.last_filled_amount]

/-- C6: `handle_sell` divides by the old position whenever it is ≤ 0, so a
Sell fill arriving with the ledger's position exactly zero divides by zero
(a `rust_decimal` panic, modelled as `none`): trade application is not
total. -/
theorem claim_C6_sell_at_zero_position_divides_by_zero :
    (ProfitAndLoss.new 10 0).on_update_received (mkTradeEvent .Sell 10 1 0)
      = none := by
  norm_num [ProfitAndLoss.on_update_received, ProfitAndLoss.handle_sell,
    ProfitAndLoss.new, checkedDiv, mkTradeEvent]

/-- C10: the depth stream name is
`<symbol_lowercase>@depth[<levels>][@<interval_ms>ms]`, the levels digits
and the `@...ms` suffix being independently optional. -/
theorem claim_C10_depth_stream_name (symbol : Symbol) (l i : Nat) :
    StreamSpec.as_param (.Depth symbol none none)
      = symbol.toLowerName ++ "@depth" ∧
    StreamSpec.as_param (.Depth symbol (some l) none)
      = symbol.toLowerName ++ "@depth" ++ toString l ∧
    StreamSpec.as_param (.Depth symbol none (some i))
      = symbol.toLowerName ++ "@depth" ++ ("@" ++ toString i ++ "ms") ∧
    StreamSpec.as_param (.Depth symbol (some l) (some i))
      = symbol.toLowerName ++ "@depth" ++ toString l ++ ("@" ++ toString i ++ "ms") := by
  refine ⟨?_, ?_, ?_, ?_⟩ <;>
    simp [StreamSpec.as_param, String.append_assoc, String.append_empty]

end Ceraunus
